import Mathlib

/-!
Shallow embedding of the StarryOS timer-notification and multiplexed-wait
subsystem (`src/api/src/file/timerfd.rs`, `src/api/src/syscall/fs/timerfd.rs`,
`src/api/src/syscall/io_mpx/select.rs`).

Durations and absolute time values are modelled as natural numbers of
nanoseconds; the Rust `as u64` / `as u32` casts appear as explicit `% 2 ^ 64`
and `% 2 ^ 32`.  Clock reads (`current_time`, `wall_time`) are side effects of
the source and become explicit parameters of the embedded functions.  Lock
acquisitions become snapshots of the mutable state passed in and returned.
-/

namespace Starry

/-- Error codes of `axerrno::AxError` used by the embedded operations. -/
inductive AxError where
  | InvalidInput
  | WouldBlock
  | BadFileDescriptor
  deriving DecidableEq

/-- `linux_raw_sys::general::timespec` restricted to the non-negative values
the timer code constructs; fields are the raw integer payloads. -/
structure Timespec where
  tv_sec : Nat
  tv_nsec : Nat
  deriving DecidableEq

/-- `linux_raw_sys::general::itimerspec`. -/
structure Itimerspec where
  it_interval : Timespec
  it_value : Timespec
  deriving DecidableEq

def NSEC_PER_SEC : Nat := 1000000000

/-- `Duration::new(ts.tv_sec as u64, ts.tv_nsec as u32)` in nanoseconds:
the casts truncate to 64 and 32 bits respectively, and `Duration::new`
carries nanosecond overflow into the seconds. -/
def Timespec.toDuration (ts : Timespec) : Nat :=
  ts.tv_sec % 2 ^ 64 * NSEC_PER_SEC + ts.tv_nsec % 2 ^ 32

/-- The all-zero `itimerspec` written for a disarmed timer. -/
def Itimerspec.zero : Itimerspec :=
  { it_interval := ⟨0, 0⟩, it_value := ⟨0, 0⟩ }

/-- An `itimerspec` holding a duration split as `(as_secs, subsec_nanos)`
in `it_value` and the same split of `interval` in `it_interval`
(the store pattern shared by `set_time`'s old-value path and `get_time`). -/
def spec_of_durations (value interval : Nat) : Itimerspec :=
  { it_value := ⟨value / NSEC_PER_SEC, value % NSEC_PER_SEC⟩,
    it_interval := ⟨interval / NSEC_PER_SEC, interval % NSEC_PER_SEC⟩ }

/-- `TimerState` from `timerfd.rs`: `ticks`, `interval` (nanoseconds, zero
means one-shot) and the optional absolute deadline (nanoseconds). -/
structure TimerState where
  ticks : Nat
  interval : Nat
  next_expiration : Option Nat
  deriving DecidableEq

/-- `TimerFd::set_time`.  `nowOld` is the `current_time()` read taken while
filling `old_value`, `nowArm` the separate read taken when arming relative
timers; the whole body runs under one acquisition of the state lock, so the
function is a single atomic step from `st` to the returned state.  The
returned `Itimerspec` is the old-value snapshot (the caller may discard it,
matching `old_value: None`).  `flags % 2 = 1` models `flags & 1 != 0`
(TFD_TIMER_ABSTIME); the absolute deadline is
`TimeValue::from_nanos(value.as_nanos() as u64)`, hence the `% 2 ^ 64`. -/
def set_time (nowOld nowArm : Nat) (flags : Nat) (new_value : Itimerspec)
    (st : TimerState) : TimerState × Itimerspec :=
  let old : Itimerspec :=
    match st.next_expiration with
    | some exp => spec_of_durations (exp - nowOld) st.interval
    | none => Itimerspec.zero
  let interval := new_value.it_interval.toDuration
  let value := new_value.it_value.toDuration
  let next : Option Nat :=
    if value = 0 then none
    else if flags % 2 = 1 then some (value % 2 ^ 64)
    else some (nowArm + value)
  ({ ticks := st.ticks, interval := interval, next_expiration := next }, old)

/-- `TimerFd::get_time`: fills `curr_value` with the remaining time
(`saturating_sub`, zero when disarmed) and the configured interval;
never mutates the state. -/
def get_time (now : Nat) (st : TimerState) : Itimerspec :=
  spec_of_durations ((st.next_expiration.map (fun exp => exp - now)).getD 0)
    st.interval

/-- The subset of `axpoll::IoEvents` bits this subsystem manipulates. -/
structure IoEvents where
  isIn : Bool
  isOut : Bool
  isErr : Bool
  isRdnorm : Bool
  deriving DecidableEq

def IoEvents.empty : IoEvents := ⟨false, false, false, false⟩

/-- Bitwise `&` on the modelled event bits. -/
def IoEvents.inter (a b : IoEvents) : IoEvents :=
  ⟨a.isIn && b.isIn, a.isOut && b.isOut, a.isErr && b.isErr,
   a.isRdnorm && b.isRdnorm⟩

def IoEvents.isEmpty (a : IoEvents) : Bool :=
  !a.isIn && !a.isOut && !a.isErr && !a.isRdnorm

/-- `<TimerFd as Pollable>::poll`: `IN | RDNORM` when `ticks > 0`,
empty otherwise. -/
def timer_poll (st : TimerState) : IoEvents :=
  if st.ticks > 0 then ⟨true, false, false, true⟩ else IoEvents.empty

/-- `u64::to_ne_bytes` (StarryOS targets are little-endian). -/
def u64NeBytes (n : Nat) : List Nat :=
  (List.range 8).map (fun i => n / 256 ^ i % 256)

/-- One attempt of `<TimerFd as FileLike>::read`: the capacity check precedes
`poll_io`, and the closure inside `poll_io` runs under the state lock — it
either consumes the whole tick count (writing its 8 native-endian bytes and
reporting 8 bytes read) or fails `WouldBlock` leaving the state untouched.
`poll_io` only repeats this same attempt in blocking mode. -/
def timer_read (bufCap : Nat) (st : TimerState) :
    Except AxError (List Nat) × TimerState :=
  if bufCap < 8 then (.error .InvalidInput, st)
  else if st.ticks > 0 then (.ok (u64NeBytes st.ticks), { st with ticks := 0 })
  else (.error .WouldBlock, st)

/-- Outcome of one iteration of `TimerFd::timer_loop`.  `fired` carries the
state written back after incrementing `ticks` and waking readers
(`poll_read.wake()`); `raceSkip` is the mismatch branch that writes nothing;
`sleepUntil` suspends on `timeout_at` with the given wall-clock deadline;
`idle` suspends indefinitely on the update event. -/
inductive IterOutcome where
  | fired (st : TimerState)
  | raceSkip (st : TimerState)
  | sleepUntil (deadline : Nat)
  | idle
  deriving DecidableEq

/-- One iteration of `TimerFd::timer_loop`.  The loop reads
`next_expiration` under the lock (`stAtCapture`), drops the lock, reads the
clock (`nowMono`), and when the captured deadline has elapsed re-acquires
the lock — the state may have changed meanwhile, hence the separate
`stAtFire` snapshot — and fires only if the stored deadline still equals
the captured one.  `nowWall` is the `wall_time()` read used to build the
suspension deadline. -/
def timer_loop_iter (stAtCapture : TimerState) (nowMono nowWall : Nat)
    (stAtFire : TimerState) : IterOutcome :=
  match stAtCapture.next_expiration with
  | none => .idle
  | some target =>
      let delta := target - nowMono
      if delta = 0 then
        if stAtFire.next_expiration = some target then
          .fired { stAtFire with
                   ticks := stAtFire.ticks + 1,
                   next_expiration :=
                     if stAtFire.interval = 0 then none
                     else some (nowMono + stAtFire.interval) }
        else .raceSkip stAtFire
      else .sleepUntil (nowWall + delta)

/-- A descriptor-table entry as select observes it: a pollable object whose
`Pollable::poll` reports the event bits of the claims' interest.  Readiness
is taken as fixed over the call, which suffices for the post-wait re-poll. -/
structure PollObj where
  poll : IoEvents
  deriving DecidableEq

/-- One entry of the candidate list built by `do_select`: the descriptor
number (what `fd_indices` records), the resolved object, and the combined
interest mask. -/
structure Candidate where
  fd : Nat
  obj : PollObj
  interested : IoEvents
  deriving DecidableEq

/-- `__FD_SETSIZE` from `linux_raw_sys`. -/
def FD_SETSIZE : Nat := 1024

/-- User `__kernel_fd_set` contents are modelled as the list of set bit
indices; `none` models a null user pointer. -/
def fdIsSet (fds : Option (List Nat)) (i : Nat) : Bool :=
  match fds with
  | none => false
  | some l => l.contains i

/-- `FdSet::new`: copies bits `0 .. nfds` of the user set into a fresh
kernel bitmap, so a bit is set exactly when its index is below `nfds` and
`FD_ISSET` holds on the user structure. -/
def fd_set_new (nfds : Nat) (fds : Option (List Nat)) : Nat → Bool :=
  fun i => if i < nfds then fdIsSet fds i else false

/-- Ascending iteration over the set bits of
`read_set.0 | write_set.0 | except_set.0` (a `Bitmap<1024>`). -/
def select_bitmap (rs ws es : Nat → Bool) : List Nat :=
  (List.range FD_SETSIZE).filter (fun i => rs i || ws i || es i)

/-- The candidate-building loop of `do_select`: for every set bit, a
descriptor-table miss aborts the whole call with `BadFileDescriptor`;
otherwise the per-fd interest mask is assembled from the three kernel
bitmaps and entries with an empty mask are skipped. -/
def collect_fds (table : Nat → Option PollObj) (rs ws es : Nat → Bool) :
    List Nat → Except AxError (List Candidate)
  | [] => .ok []
  | fd :: rest =>
      match table fd with
      | none => .error .BadFileDescriptor
      | some f =>
          let events : IoEvents := ⟨rs fd, ws fd, es fd, false⟩
          match collect_fds table rs ws es rest with
          | .error e => .error e
          | .ok tail =>
              .ok (if events.isEmpty then tail else ⟨fd, f, events⟩ :: tail)

/-- `store_fdset`: a null user pointer is left alone, otherwise the user
structure is overwritten with the kernel-built output bitmap. -/
def store_fdset (userSet : Option (List Nat)) (out : List Nat) :
    Option (List Nat) :=
  match userSet with
  | none => none
  | some _ => some out

/-- The candidates whose current `poll` intersected with their interest mask
is non-empty — the entries the post-wait loop counts (`res += 1`). -/
def ready_cands (cands : List Candidate) : List Candidate :=
  cands.filter (fun c => !(c.obj.poll.inter c.interested).isEmpty)

/-- The descriptor numbers `FD_SET` into one output bitmap: the ready
candidates whose satisfied events contain the bit selected by `proj`
(`isIn`/`isOut`/`isErr` for the read/write/except output sets). -/
def out_bits (cands : List Candidate) (proj : IoEvents → Bool) : List Nat :=
  ((ready_cands cands).filter
    (fun c => proj (c.obj.poll.inter c.interested))).map Candidate.fd

/-- `do_select` after argument conversion: `userR`/`userW`/`userE` are the
loaded contents of the three user descriptor sets (`none` = null pointer),
`table` the descriptor-table lookup, and `waitReady` the ready-count the
blocking wait resolved with (`future::timeout` expiry resolves it to 0).
The returned triple is the post-call contents of the three user sets: they
are written only on the success paths, so an aborted call leaves them as
they were.  The sigmask plumbing and the scoped mask override do not touch
the descriptor sets and are omitted. -/
def do_select (nfds : Nat) (userR userW userE : Option (List Nat))
    (table : Nat → Option PollObj) (waitReady : Nat) :
    Except AxError Nat ×
      Option (List Nat) × Option (List Nat) × Option (List Nat) :=
  if nfds > FD_SETSIZE then (.error .InvalidInput, userR, userW, userE)
  else
    let rs := fd_set_new nfds userR
    let ws := fd_set_new nfds userW
    let es := fd_set_new nfds userE
    match collect_fds table rs ws es (select_bitmap rs ws es) with
    | .error e => (.error e, userR, userW, userE)
    | .ok cands =>
        if waitReady > 0 then
          (.ok (ready_cands cands).length,
            store_fdset userR (out_bits cands IoEvents.isIn),
            store_fdset userW (out_bits cands IoEvents.isOut),
            store_fdset userE (out_bits cands IoEvents.isErr))
        else
          (.ok 0, store_fdset userR [], store_fdset userW [],
            store_fdset userE [])

/-- A live descriptor-table entry as the timerfd syscalls see it: either a
`TimerFd` (carrying its state) or some other file-like object, on which the
`downcast::<TimerFd>` fails. -/
inductive FileObj where
  | timer (st : TimerState)
  | other (tag : Nat)
  deriving DecidableEq

def FileObj.isTimerFd : FileObj → Bool
  | .timer _ => true
  | .other _ => false

/-- `sys_timerfd_settime` after the descriptor resolved to the live object
`obj`: the downcast failure yields `InvalidInput` before anything else, a
null `new_value` pointer yields `InvalidInput`, and otherwise `set_time`
runs.  The returned `FileObj` is the object's post-call state. -/
def sys_timerfd_settime (obj : FileObj) (flags : Nat) (nowOld nowArm : Nat)
    (newValueNull : Bool) (new_value : Itimerspec) :
    Except AxError Nat × FileObj :=
  match obj with
  | .other t => (.error .InvalidInput, .other t)
  | .timer st =>
      if newValueNull then (.error .InvalidInput, .timer st)
      else (.ok 0, .timer (set_time nowOld nowArm flags new_value st).1)

/-- `sys_timerfd_gettime` after the descriptor resolved to `obj`: downcast
failure yields `InvalidInput`; otherwise the value written to user memory
is `get_time` of the unchanged state. -/
def sys_timerfd_gettime (obj : FileObj) (now : Nat) :
    Except AxError Itimerspec × FileObj :=
  match obj with
  | .other t => (.error .InvalidInput, .other t)
  | .timer st => (.ok (get_time now st), .timer st)

/-- Claim C1: `set_time` with a zero initial value disarms the timer; with a
non-zero initial value and bit 0 of `flags` set the new deadline is the
initial value itself (as a 64-bit nanosecond time value); with bit 0 clear
it is the current clock reading plus the initial value; and in every case
the stored interval becomes `new_value`'s interval. -/
theorem set_time_cases (nowOld nowArm flags : Nat) (nv : Itimerspec)
    (st : TimerState) :
    (set_time nowOld nowArm flags nv st).1.interval =
      nv.it_interval.toDuration ∧
    (nv.it_value.toDuration = 0 →
      (set_time nowOld nowArm flags nv st).1.next_expiration = none) ∧
    (nv.it_value.toDuration ≠ 0 → flags % 2 = 1 →
      (set_time nowOld nowArm flags nv st).1.next_expiration =
        some (nv.it_value.toDuration % 2 ^ 64)) ∧
    (nv.it_value.toDuration ≠ 0 → flags % 2 ≠ 1 →
      (set_time nowOld nowArm flags nv st).1.next_expiration =
        some (nowArm + nv.it_value.toDuration)) := by
  refine ⟨rfl, fun h => ?_, fun h hf => ?_, fun h hf => ?_⟩
  · simp [set_time, h]
  · simp [set_time, h, hf]
  · simp [set_time, h, hf]

/-- Concrete instantiations of `set_time_cases`: disarm, absolute arm,
relative arm, and the interval store. -/
theorem set_time_cases_witness :
    (set_time 0 7 1 ⟨⟨2, 3⟩, ⟨1, 5⟩⟩ ⟨4, 9, some 11⟩).1.interval =
      2000000003 ∧
    (set_time 0 7 1 ⟨⟨2, 3⟩, ⟨0, 0⟩⟩ ⟨4, 9, some 11⟩).1.next_expiration =
      none ∧
    (set_time 0 7 1 ⟨⟨2, 3⟩, ⟨1, 5⟩⟩ ⟨4, 9, some 11⟩).1.next_expiration =
      some 1000000005 ∧
    (set_time 0 7 0 ⟨⟨2, 3⟩, ⟨1, 5⟩⟩ ⟨4, 9, some 11⟩).1.next_expiration =
      some 1000000012 :=
  ⟨((set_time_cases 0 7 1 ⟨⟨2, 3⟩, ⟨1, 5⟩⟩ ⟨4, 9, some 11⟩).1).trans
      (by decide),
   (set_time_cases 0 7 1 ⟨⟨2, 3⟩, ⟨0, 0⟩⟩ ⟨4, 9, some 11⟩).2.1 (by decide),
   (((set_time_cases 0 7 1 ⟨⟨2, 3⟩, ⟨1, 5⟩⟩ ⟨4, 9, some 11⟩).2.2.1
      (by decide) (by decide)).trans (by decide)),
   (((set_time_cases 0 7 0 ⟨⟨2, 3⟩, ⟨1, 5⟩⟩ ⟨4, 9, some 11⟩).2.2.2
      (by decide) (by decide)).trans (by decide))⟩

/-- Claim C2: in a loop iteration whose captured deadline has elapsed, if the
re-read `next_expiration` still equals the captured deadline the iteration
fires — one tick is added, readers are woken, and the deadline is re-armed
to the firing time plus the interval when the interval is non-zero and
cleared otherwise; if the re-read deadline differs, nothing is recorded and
the loop restarts with the state unchanged. -/
theorem timer_loop_fire (stAtCapture stAtFire : TimerState)
    (nowMono nowWall target : Nat)
    (hcap : stAtCapture.next_expiration = some target)
    (helapsed : target ≤ nowMono) :
    (stAtFire.next_expiration = some target →
      timer_loop_iter stAtCapture nowMono nowWall stAtFire =
        .fired { ticks := stAtFire.ticks + 1,
                 interval := stAtFire.interval,
                 next_expiration :=
                   if stAtFire.interval = 0 then none
                   else some (nowMono + stAtFire.interval) }) ∧
    (stAtFire.next_expiration ≠ some target →
      timer_loop_iter stAtCapture nowMono nowWall stAtFire =
        .raceSkip stAtFire) := by
  have hd : target - nowMono = 0 := Nat.sub_eq_zero_of_le helapsed
  constructor <;> intro h <;> simp [timer_loop_iter, hcap, hd, h]

/-- Concrete instantiations of `timer_loop_fire`: a one-shot firing (tick
recorded, deadline cleared) and a racing re-arm (skipped, state intact). -/
theorem timer_loop_fire_witness :
    timer_loop_iter ⟨0, 0, some 5⟩ 5 100 ⟨0, 0, some 5⟩ =
      .fired ⟨1, 0, none⟩ ∧
    timer_loop_iter ⟨0, 0, some 5⟩ 5 100 ⟨0, 3, some 6⟩ =
      .raceSkip ⟨0, 3, some 6⟩ :=
  ⟨((timer_loop_fire ⟨0, 0, some 5⟩ ⟨0, 0, some 5⟩ 5 100 5 rfl
      (by decide)).1 rfl).trans (by decide),
   (timer_loop_fire ⟨0, 0, some 5⟩ ⟨0, 3, some 6⟩ 5 100 5 rfl
      (by decide)).2 (by decide)⟩

/-- Claim C3: a timer read with a destination of fewer than 8 bytes fails
with `InvalidInput` leaving the state alone; with a non-zero tick count it
writes the count as 8 bytes, resets the count to zero and reports 8 bytes,
all in the one locked step; with a zero tick count the attempt fails with
`WouldBlock`. -/
theorem timer_read_spec (bufCap : Nat) (st : TimerState) :
    (bufCap < 8 → timer_read bufCap st = (.error .InvalidInput, st)) ∧
    (8 ≤ bufCap → st.ticks ≠ 0 →
      timer_read bufCap st =
        (.ok (u64NeBytes st.ticks), { st with ticks := 0 }) ∧
      (u64NeBytes st.ticks).length = 8) ∧
    (8 ≤ bufCap → st.ticks = 0 →
      timer_read bufCap st = (.error .WouldBlock, st)) := by
  refine ⟨fun h => ?_, fun h ht => ⟨?_, ?_⟩, fun h ht => ?_⟩
  · simp [timer_read, h]
  · simp [timer_read, Nat.not_lt.mpr h, Nat.pos_of_ne_zero ht]
  · simp [u64NeBytes]
  · simp [timer_read, Nat.not_lt.mpr h, ht]

/-- Concrete instantiations of `timer_read_spec`: short buffer, successful
consume, and empty-count attempt. -/
theorem timer_read_spec_witness :
    timer_read 7 ⟨3, 2, some 9⟩ = (.error .InvalidInput, ⟨3, 2, some 9⟩) ∧
    timer_read 8 ⟨3, 2, some 9⟩ =
      (.ok [3, 0, 0, 0, 0, 0, 0, 0], ⟨0, 2, some 9⟩) ∧
    timer_read 8 ⟨0, 2, some 9⟩ = (.error .WouldBlock, ⟨0, 2, some 9⟩) :=
  ⟨(timer_read_spec 7 ⟨3, 2, some 9⟩).1 (by decide),
   (((timer_read_spec 8 ⟨3, 2, some 9⟩).2.1 (by decide) (by decide)).1).trans
     rfl,
   (timer_read_spec 8 ⟨0, 2, some 9⟩).2.2 (by decide) rfl⟩

/-- Claim C7: the old-value snapshot produced by `set_time` is a pure
function of the pre-update state (and the clock reading taken under the same
lock acquisition): for an armed timer it is the saturating remaining time
together with the pre-update interval, and for a disarmed timer it is
all zeros. -/
theorem set_time_old_value (nowOld nowArm flags : Nat) (nv : Itimerspec)
    (st : TimerState) :
    (∀ exp, st.next_expiration = some exp →
      (set_time nowOld nowArm flags nv st).2 =
        spec_of_durations (exp - nowOld) st.interval) ∧
    (st.next_expiration = none →
      (set_time nowOld nowArm flags nv st).2 = Itimerspec.zero) := by
  constructor
  · intro exp h; simp [set_time, h]
  · intro h; simp [set_time, h]

/-- Concrete instantiations of `set_time_old_value`: an armed timer reports
its remaining time and old interval, a disarmed one reports zeros. -/
theorem set_time_old_value_witness :
    (set_time 2 2 0 ⟨⟨0, 0⟩, ⟨5, 0⟩⟩ ⟨0, 3000000000, some 1500000007⟩).2 =
      ⟨⟨3, 0⟩, ⟨1, 500000005⟩⟩ ∧
    (set_time 2 2 0 ⟨⟨0, 0⟩, ⟨5, 0⟩⟩ ⟨0, 3000000000, none⟩).2 =
      ⟨⟨0, 0⟩, ⟨0, 0⟩⟩ :=
  ⟨((set_time_old_value 2 2 0 ⟨⟨0, 0⟩, ⟨5, 0⟩⟩
      ⟨0, 3000000000, some 1500000007⟩).1 1500000007 rfl).trans (by decide),
   ((set_time_old_value 2 2 0 ⟨⟨0, 0⟩, ⟨5, 0⟩⟩ ⟨0, 3000000000, none⟩).2
      rfl).trans (by decide)⟩

/-- Claim C8: the readiness poll reports the timer readable exactly when the
tick count is non-zero. -/
theorem timer_poll_readable (st : TimerState) :
    (timer_poll st).isIn = true ↔ st.ticks ≠ 0 := by
  rcases Nat.eq_zero_or_pos st.ticks with h | h
  · simp [timer_poll, h, IoEvents.empty]
  · simp [timer_poll, h, Nat.pos_iff_ne_zero.mp h]

/-- Concrete instantiations of `timer_poll_readable` in both directions. -/
theorem timer_poll_readable_witness :
    (timer_poll ⟨2, 0, none⟩).isIn = true ∧
    ¬ (timer_poll ⟨0, 5, some 3⟩).isIn = true :=
  ⟨(timer_poll_readable ⟨2, 0, none⟩).mpr (by decide),
   fun h => by simpa using (timer_poll_readable ⟨0, 5, some 3⟩).mp h⟩

/-- Claim C9: `set_time` never touches the tick count, so re-arming or
disarming keeps pending unread expirations; a read attempt leaves the state
untouched on any failure and only a successful read resets the count to
zero. -/
theorem set_time_preserves_ticks (nowOld nowArm flags : Nat)
    (nv : Itimerspec) (st : TimerState) (bufCap : Nat) :
    (set_time nowOld nowArm flags nv st).1.ticks = st.ticks ∧
    (∀ e, (timer_read bufCap st).1 = .error e →
      (timer_read bufCap st).2 = st) ∧
    (∀ bs, (timer_read bufCap st).1 = .ok bs →
      (timer_read bufCap st).2.ticks = 0) := by
  refine ⟨rfl, ?_, ?_⟩
  · intro e h
    by_cases h8 : bufCap < 8
    · simp [timer_read, h8]
    · by_cases ht : st.ticks > 0
      · simp [timer_read, h8, ht] at h
      · simp [timer_read, h8, ht]
  · intro bs h
    by_cases h8 : bufCap < 8
    · simp [timer_read, h8] at h
    · by_cases ht : st.ticks > 0
      · simp [timer_read, h8, ht]
      · simp [timer_read, h8, ht] at h

/-- Concrete instantiations of `set_time_preserves_ticks`: a re-arm keeps
two pending ticks, a failed read keeps the state, a successful read zeroes
the count. -/
theorem set_time_preserves_ticks_witness :
    (set_time 1 1 0 ⟨⟨0, 0⟩, ⟨4, 0⟩⟩ ⟨2, 7, some 3⟩).1.ticks = 2 ∧
    (timer_read 4 ⟨2, 7, some 3⟩).2 = ⟨2, 7, some 3⟩ ∧
    (timer_read 9 ⟨2, 7, some 3⟩).2.ticks = 0 :=
  ⟨(set_time_preserves_ticks 1 1 0 ⟨⟨0, 0⟩, ⟨4, 0⟩⟩ ⟨2, 7, some 3⟩ 4).1,
   (set_time_preserves_ticks 1 1 0 ⟨⟨0, 0⟩, ⟨4, 0⟩⟩ ⟨2, 7, some 3⟩ 4).2.1
     .InvalidInput rfl,
   (set_time_preserves_ticks 1 1 0 ⟨⟨0, 0⟩, ⟨4, 0⟩⟩ ⟨2, 7, some 3⟩ 9).2.2
     (u64NeBytes 2) rfl⟩

/-- Claim C10: when the descriptor resolves to a live file object that is
not a timer, both `sys_timerfd_settime` and `sys_timerfd_gettime` fail with
`InvalidInput` and the object is left exactly as it was. -/
theorem timerfd_syscalls_non_timer (obj : FileObj)
    (flags nowOld nowArm now : Nat) (nvNull : Bool) (nv : Itimerspec)
    (h : obj.isTimerFd = false) :
    sys_timerfd_settime obj flags nowOld nowArm nvNull nv =
      (.error .InvalidInput, obj) ∧
    sys_timerfd_gettime obj now = (.error .InvalidInput, obj) := by
  cases obj with
  | timer st => simp [FileObj.isTimerFd] at h
  | other t => exact ⟨rfl, rfl⟩

/-- Concrete instantiation of `timerfd_syscalls_non_timer` on a non-timer
file object. -/
theorem timerfd_syscalls_non_timer_witness :
    sys_timerfd_settime (.other 42) 0 1 1 false ⟨⟨0, 0⟩, ⟨1, 0⟩⟩ =
      (.error .InvalidInput, .other 42) ∧
    sys_timerfd_gettime (.other 42) 5 = (.error .InvalidInput, .other 42) :=
  timerfd_syscalls_non_timer (.other 42) 0 1 1 5 false ⟨⟨0, 0⟩, ⟨1, 0⟩⟩
    (by decide)

/-- A descriptor-table miss anywhere in the iterated bit list makes the
candidate-building loop abort with exactly `BadFileDescriptor`. -/
theorem collect_fds_miss (table : Nat → Option PollObj)
    (rs ws es : Nat → Bool) :
    ∀ l : List Nat, (∃ fd ∈ l, table fd = none) →
      collect_fds table rs ws es l = .error .BadFileDescriptor := by
  intro l
  induction l with
  | nil => rintro ⟨fd, hfd, _⟩; exact absurd hfd (List.not_mem_nil fd)
  | cons hd tl ih =>
      rintro ⟨fd, hfd, hmiss⟩
      by_cases hhd : table hd = none
      · simp [collect_fds, hhd]
      · obtain ⟨f, hf⟩ := Option.ne_none_iff_exists'.mp hhd
        rcases List.mem_cons.mp hfd with rfl | hfd'
        · exact absurd hmiss hhd
        · simp [collect_fds, hf, ih ⟨fd, hfd', hmiss⟩]

/-- When every iterated bit resolves in the descriptor table, the
candidate-building loop succeeds. -/
theorem collect_fds_ok (table : Nat → Option PollObj)
    (rs ws es : Nat → Bool) :
    ∀ l : List Nat, (∀ fd ∈ l, (table fd).isSome) →
      ∃ cs, collect_fds table rs ws es l = .ok cs := by
  intro l
  induction l with
  | nil => exact fun _ => ⟨[], rfl⟩
  | cons hd tl ih =>
      intro h
      obtain ⟨f, hf⟩ :=
        Option.isSome_iff_exists.mp (h hd (List.mem_cons_self hd tl))
      obtain ⟨cs, hcs⟩ := ih (fun fd hfd => h fd (List.mem_cons_of_mem hd hfd))
      refine ⟨if (⟨rs hd, ws hd, es hd, false⟩ : IoEvents).isEmpty then cs
        else ⟨hd, f, ⟨rs hd, ws hd, es hd, false⟩⟩ :: cs, ?_⟩
      simp [collect_fds, hf, hcs]

/-- Every candidate built by the loop carries a descriptor number taken from
the iterated bit list. -/
theorem collect_fds_mem (table : Nat → Option PollObj)
    (rs ws es : Nat → Bool) :
    ∀ l cs, collect_fds table rs ws es l = .ok cs →
      ∀ c ∈ cs, c.fd ∈ l := by
  intro l
  induction l with
  | nil =>
      intro cs h c hc
      simp [collect_fds] at h
      subst h
      simp at hc
  | cons hd tl ih =>
      intro cs h c hc
      rcases hhd : table hd with _ | f
      · simp [collect_fds, hhd] at h
      · rcases htl : collect_fds table rs ws es tl with e | tail
        · simp [collect_fds, hhd, htl] at h
        · simp only [collect_fds, hhd, htl] at h
          by_cases he : (⟨rs hd, ws hd, es hd, false⟩ : IoEvents).isEmpty
          · rw [if_pos he] at h
            simp only [Except.ok.injEq] at h
            subst h
            exact List.mem_cons_of_mem hd (ih tail htl c hc)
          · rw [if_neg he] at h
            simp only [Except.ok.injEq] at h
            subst h
            rcases List.mem_cons.mp hc with rfl | hc'
            · exact List.mem_cons_self hd tl
            · exact List.mem_cons_of_mem hd (ih tail htl c hc')

/-- A written-back user set equals the kernel output bitmap. -/
theorem store_fdset_some (u : Option (List Nat)) (out l : List Nat)
    (h : store_fdset u out = some l) : l = out := by
  cases u with
  | none => simp [store_fdset] at h
  | some a => simp [store_fdset] at h; exact h.symm

/-- Every bit of an output bitmap names some candidate. -/
theorem out_bits_mem (cands : List Candidate) (proj : IoEvents → Bool)
    (fd : Nat) (h : fd ∈ out_bits cands proj) : ∃ c ∈ cands, c.fd = fd := by
  simp only [out_bits, ready_cands, List.mem_map, List.mem_filter] at h
  obtain ⟨c, ⟨⟨hc, _⟩, _⟩, rfl⟩ := h
  exact ⟨c, hc, rfl⟩

/-- Any bit set in an output bitmap written back by a successful
`do_select` was a set bit of the combined interest bitmap. -/
theorem do_select_out_mem_bitmap (nfds : Nat)
    (userR userW userE : Option (List Nat)) (table : Nat → Option PollObj)
    (waitReady n : Nat) (l : List Nat) (fd : Nat)
    (hok : (do_select nfds userR userW userE table waitReady).1 = .ok n)
    (hl : (do_select nfds userR userW userE table waitReady).2.1 = some l ∨
      (do_select nfds userR userW userE table waitReady).2.2.1 = some l ∨
      (do_select nfds userR userW userE table waitReady).2.2.2 = some l)
    (hfd : fd ∈ l) :
    fd ∈ select_bitmap (fd_set_new nfds userR) (fd_set_new nfds userW)
      (fd_set_new nfds userE) := by
  by_cases hcap : FD_SETSIZE < nfds
  · simp [do_select, hcap] at hok
  · rcases hcol : collect_fds table (fd_set_new nfds userR)
        (fd_set_new nfds userW) (fd_set_new nfds userE)
        (select_bitmap (fd_set_new nfds userR) (fd_set_new nfds userW)
          (fd_set_new nfds userE)) with e | cs
    · simp [do_select, hcap, hcol] at hok
    · by_cases hw : waitReady > 0
      · have hsel : (do_select nfds userR userW userE table waitReady).2 =
            (store_fdset userR (out_bits cs IoEvents.isIn),
             store_fdset userW (out_bits cs IoEvents.isOut),
             store_fdset userE (out_bits cs IoEvents.isErr)) := by
          simp [do_select, hcap, hcol, hw]
        rcases hl with h | h | h <;> rw [hsel] at h <;> simp only [] at h
        · obtain rfl := store_fdset_some _ _ _ h
          obtain ⟨c, hc, rfl⟩ := out_bits_mem _ _ _ hfd
          exact collect_fds_mem table _ _ _ _ cs hcol c hc
        · obtain rfl := store_fdset_some _ _ _ h
          obtain ⟨c, hc, rfl⟩ := out_bits_mem _ _ _ hfd
          exact collect_fds_mem table _ _ _ _ cs hcol c hc
        · obtain rfl := store_fdset_some _ _ _ h
          obtain ⟨c, hc, rfl⟩ := out_bits_mem _ _ _ hfd
          exact collect_fds_mem table _ _ _ _ cs hcol c hc
      · have hsel : (do_select nfds userR userW userE table waitReady).2 =
            (store_fdset userR [], store_fdset userW [],
             store_fdset userE []) := by
          simp [do_select, hcap, hcol, hw]
        rcases hl with h | h | h <;> rw [hsel] at h <;> simp only [] at h <;>
          obtain rfl := store_fdset_some _ _ _ h <;> simp at hfd

/-- Claim C4: a multiplexed wait whose interest bitmaps contain a bit, below
`nfds`, that does not resolve in the descriptor table fails whole with
`BadFileDescriptor`, and none of the three user descriptor sets is written
back. -/
theorem do_select_bad_fd (nfds : Nat) (userR userW userE : Option (List Nat))
    (table : Nat → Option PollObj) (waitReady : Nat)
    (hn : nfds ≤ FD_SETSIZE) (fd : Nat)
    (hmem : fd ∈ select_bitmap (fd_set_new nfds userR) (fd_set_new nfds userW)
      (fd_set_new nfds userE))
    (hmiss : table fd = none) :
    do_select nfds userR userW userE table waitReady =
      (.error .BadFileDescriptor, userR, userW, userE) := by
  have hcol := collect_fds_miss table (fd_set_new nfds userR)
    (fd_set_new nfds userW) (fd_set_new nfds userE) _ ⟨fd, hmem, hmiss⟩
  simp [do_select, Nat.not_lt.mpr hn, hcol]

/-- Concrete instantiation of `do_select_bad_fd`: bit 2 of the read set has
no descriptor-table entry, the call aborts, user memory is untouched. -/
theorem do_select_bad_fd_witness :
    do_select 4 (some [2]) none none (fun _ => none) 0 =
      (.error .BadFileDescriptor, some [2], none, none) :=
  do_select_bad_fd 4 (some [2]) none none (fun _ => none) 0 (by decide) 2
    (by simp [select_bitmap, fd_set_new, fdIsSet, List.mem_filter,
          List.mem_range, FD_SETSIZE]) rfl

/-- Claim C5: a multiplexed wait whose blocking wait resolves with a
ready-count of zero (timeout) returns 0 rather than an error, and each
supplied user descriptor set is overwritten with the zeroed bitmap. -/
theorem do_select_timeout_clears (nfds : Nat)
    (userR userW userE : Option (List Nat)) (table : Nat → Option PollObj)
    (hn : nfds ≤ FD_SETSIZE)
    (hlive : ∀ fd ∈ select_bitmap (fd_set_new nfds userR)
      (fd_set_new nfds userW) (fd_set_new nfds userE), (table fd).isSome) :
    do_select nfds userR userW userE table 0 =
      (.ok 0, store_fdset userR [], store_fdset userW [],
        store_fdset userE []) := by
  obtain ⟨cs, hcs⟩ := collect_fds_ok table (fd_set_new nfds userR)
    (fd_set_new nfds userW) (fd_set_new nfds userE) _ hlive
  simp [do_select, Nat.not_lt.mpr hn, hcs]

/-- Concrete instantiation of `do_select_timeout_clears`: two interest bits
on live descriptors, timeout, return 0 and both supplied sets cleared. -/
theorem do_select_timeout_clears_witness :
    do_select 2 (some [1]) none (some [0])
      (fun _ => some ⟨⟨true, true, true, false⟩⟩) 0 =
      (.ok 0, some [], none, some []) :=
  do_select_timeout_clears 2 (some [1]) none (some [0])
    (fun _ => some ⟨⟨true, true, true, false⟩⟩) (by decide) (fun _ _ => rfl)

/-- Claim C6: a descriptor number at or above `nfds` is never interpreted:
it is absent from the iterated interest bitmap (hence from the candidate
list), and on any successful call its bit is absent from every output set
written back — even when its bit is set in an input set and the table holds
a ready object for it. -/
theorem do_select_ignores_ge_nfds (nfds : Nat)
    (userR userW userE : Option (List Nat)) (table : Nat → Option PollObj)
    (waitReady : Nat) (fd : Nat) (hfd : nfds ≤ fd) :
    fd ∉ select_bitmap (fd_set_new nfds userR) (fd_set_new nfds userW)
      (fd_set_new nfds userE) ∧
    ∀ n, (do_select nfds userR userW userE table waitReady).1 = .ok n →
      (∀ l, (do_select nfds userR userW userE table waitReady).2.1 = some l →
        fd ∉ l) ∧
      (∀ l,
        (do_select nfds userR userW userE table waitReady).2.2.1 = some l →
        fd ∉ l) ∧
      (∀ l,
        (do_select nfds userR userW userE table waitReady).2.2.2 = some l →
        fd ∉ l) := by
  have hrs : fd_set_new nfds userR fd = false := by
    simp [fd_set_new, Nat.not_lt.mpr hfd]
  have hws : fd_set_new nfds userW fd = false := by
    simp [fd_set_new, Nat.not_lt.mpr hfd]
  have hes : fd_set_new nfds userE fd = false := by
    simp [fd_set_new, Nat.not_lt.mpr hfd]
  have hnotmem : fd ∉ select_bitmap (fd_set_new nfds userR)
      (fd_set_new nfds userW) (fd_set_new nfds userE) := by
    simp [select_bitmap, List.mem_filter, hrs, hws, hes]
  refine ⟨hnotmem, fun n hok =>
    ⟨fun l hl hin => ?_, fun l hl hin => ?_, fun l hl hin => ?_⟩⟩
  · exact hnotmem (do_select_out_mem_bitmap nfds userR userW userE table
      waitReady n l fd hok (Or.inl hl) hin)
  · exact hnotmem (do_select_out_mem_bitmap nfds userR userW userE table
      waitReady n l fd hok (Or.inr (Or.inl hl)) hin)
  · exact hnotmem (do_select_out_mem_bitmap nfds userR userW userE table
      waitReady n l fd hok (Or.inr (Or.inr hl)) hin)

/-- Concrete instantiation of `do_select_ignores_ge_nfds`: bit 3 is set in
the read interest set, the table object at 3 is ready in every sense, yet
with `nfds = 1` bit 3 is neither a candidate nor in any output. -/
theorem do_select_ignores_ge_nfds_witness :
    3 ∉ select_bitmap (fd_set_new 1 (some [3])) (fd_set_new 1 none)
      (fd_set_new 1 none) ∧
    ∀ n, (do_select 1 (some [3]) none none
        (fun _ => some ⟨⟨true, true, true, true⟩⟩) 1).1 = .ok n →
      (∀ l, (do_select 1 (some [3]) none none
          (fun _ => some ⟨⟨true, true, true, true⟩⟩) 1).2.1 = some l →
        3 ∉ l) ∧
      (∀ l, (do_select 1 (some [3]) none none
          (fun _ => some ⟨⟨true, true, true, true⟩⟩) 1).2.2.1 = some l →
        3 ∉ l) ∧
      (∀ l, (do_select 1 (some [3]) none none
          (fun _ => some ⟨⟨true, true, true, true⟩⟩) 1).2.2.2 = some l →
        3 ∉ l) :=
  do_select_ignores_ge_nfds 1 (some [3]) none none
    (fun _ => some ⟨⟨true, true, true, true⟩⟩) 1 3 (by decide)

end Starry
